import Mathlib

/-!
Verification development for the fully-connected neural-network classifiers
in `core/classifiers/fc_net.py` (classes `TwoLayerNet` and
`FullyConnectedNet`).

The source is shallowly embedded: numpy tensors become a structure carrying
an explicit shape and rational-valued data; Python dictionaries become
association lists with Python's insert-or-update semantics; the layer
primitives (`affine_forward`, `relu_forward`, `batchnorm_forward`,
`dropout_forward`, `softmax_loss` and the backward counterparts, imported
from `core.layers`) are external collaborators of the two classes and are
modelled as an abstract `Primitives` record of pure functions; Python
exceptions (`KeyError`, `IndexError`, `NameError`) become `Except String`
results.  Method calls that mutate `self` return the updated object next to
their result.
-/

/-- A numpy array: an explicit (rows, cols) shape plus rational entries.
One-dimensional arrays such as biases are represented with `rows = 1`. -/
structure Tensor where
  rows : Nat
  cols : Nat
  data : List (List ℚ)
deriving DecidableEq, Repr

/-- `np.zeros(n)` : a length-`n` vector of zeros. -/
def zeros (n : Nat) : Tensor := ⟨1, n, [List.replicate n 0]⟩

/-- `np.ones(n)` : a length-`n` vector of ones. -/
def ones (n : Nat) : Tensor := ⟨1, n, [List.replicate n 1]⟩

/-- `np.sum(t ** 2)` : the sum of the squared entries of a tensor. -/
def sumsq (t : Tensor) : ℚ := (t.data.map (fun r => (r.map (fun x => x * x)).sum)).sum

/-- Elementwise tensor addition (as in `dw + reg * W`). -/
def tadd (a b : Tensor) : Tensor :=
  ⟨a.rows, a.cols, List.zipWith (List.zipWith (· + ·)) a.data b.data⟩

/-- Multiplication of a tensor by a scalar (as in `reg * W`). -/
def tsmul (c : ℚ) (a : Tensor) : Tensor :=
  ⟨a.rows, a.cols, a.data.map (List.map (fun x => c * x))⟩

/-- Python dictionary lookup `d[k]` over an association list: the first
entry with the matching key, `none` standing for a raised `KeyError`. -/
def alGet {κ α : Type} [DecidableEq κ] (d : List (κ × α)) (k : κ) : Option α :=
  match d with
  | [] => none
  | kv :: rest => if kv.1 = k then some kv.2 else alGet rest k

/-- Python dictionary assignment `d[k] = v`: update the first entry with the
matching key in place, or append a new entry (insertion order preserved). -/
def alSet {κ α : Type} [DecidableEq κ] (d : List (κ × α)) (k : κ) (v : α) : List (κ × α) :=
  match d with
  | [] => [(k, v)]
  | kv :: rest => if kv.1 = k then (k, v) :: rest else kv :: alSet rest k v

/-- The keys of a Python dictionary, in insertion order. -/
def alKeys {κ α : Type} (d : List (κ × α)) : List κ := d.map (·.1)

/-- A Python dictionary key: the source uses both string keys (`'mode'`)
and, through the `bn_param[i-1]` expression, integer keys. -/
inductive PyKey where
  | str (s : String)
  | int (z : Int)
deriving DecidableEq, Repr

/-- A scalar Python dictionary value: strings (`'train'`), rationals
(dropout strength), integers (seeds). -/
inductive PyVal where
  | s (v : String)
  | q (v : ℚ)
  | z (v : Int)
deriving DecidableEq, Repr

/-- A heterogeneously keyed Python dictionary such as a `bn_param`
statistics record or the `dropout_param` configuration. -/
abbrev PyDict := List (PyKey × PyVal)

/-- Tag for the numpy dtype configured on a network (`np.float32`, ...);
its interpretation lives entirely in the abstract `astype` primitive. -/
abbrev Dtype := Nat

/-- Class labels `y` (a numpy integer vector). -/
abbrev Labels := List Nat

/-- The external layer primitives from `core.layers` / `core.layer_utils`,
each a pure function over tensors (they are collaborators of the two
network classes and are not part of the embedded source file), together
with numpy's `astype` cast.  `Cache` is the opaque per-layer cache type. -/
structure Primitives (Cache : Type) where
  affine_forward : Tensor → Tensor → Tensor → Tensor × Cache
  relu_forward : Tensor → Tensor × Cache
  batchnorm_forward : Tensor → Tensor → Tensor → PyVal → Tensor × Cache
  dropout_forward : Tensor → PyDict → Tensor × Cache
  softmax_loss : Tensor → Labels → ℚ × Tensor
  affine_backward : Tensor → Cache → Tensor × Tensor × Tensor
  relu_backward : Tensor → Cache → Tensor
  batchnorm_backward : Tensor → Cache → Tensor × Tensor × Tensor
  dropout_backward : Tensor → Cache → Tensor
  astype : Dtype → Tensor → Tensor

/-- Either the scores tensor (test mode) or `(loss, grads)` (train mode):
the two possible results of a `loss` call. -/
abbrev LossResult := Sum Tensor (ℚ × List (String × Tensor))

/-- The state of a `TwoLayerNet` instance: `self.params` and `self.reg`. -/
structure TwoLayerNet where
  params : List (String × Tensor)
  reg : ℚ
deriving DecidableEq

/-- `TwoLayerNet.__init__`: `W1`, `W2` drawn from the normal distribution
(modelled by the explicit generator `randn scale draw rows cols`), `b1`,
`b2` zero, stored in `self.params` in the source's insertion order. -/
def TwoLayerNet.init (input_dim hidden_dim num_classes : Nat)
    (weight_scale reg : ℚ) (randn : ℚ → Nat → Nat → Nat → Tensor) : TwoLayerNet :=
  { params :=
      alSet (alSet (alSet (alSet [] "W1" (randn weight_scale 1 input_dim hidden_dim))
        "W2" (randn weight_scale 2 hidden_dim num_classes))
        "b1" (zeros hidden_dim))
        "b2" (zeros num_classes),
    reg := reg }

/-- `TwoLayerNet.loss(X, y)`: forward `affine - relu - affine`; with `y`
absent return the scores, otherwise softmax loss, the mirrored backward
pass, L2 regularization on `W1`, `W2`.  The instance is returned unchanged
next to the result (the method never assigns to `self`). -/
def TwoLayerNet.loss {C : Type} (p : Primitives C) (net : TwoLayerNet)
    (X : Tensor) (y : Option Labels) :
    TwoLayerNet × Except String LossResult :=
  (net,
    match alGet net.params "W1", alGet net.params "b1" with
    | some W1, some b1 =>
      let o1 := p.affine_forward X W1 b1
      let o2 := p.relu_forward o1.1
      match alGet net.params "W2", alGet net.params "b2" with
      | some W2, some b2 =>
        let o3 := p.affine_forward o2.1 W2 b2
        match y with
        | none => Except.ok (Sum.inl o3.1)
        | some yv =>
          let sm := p.softmax_loss o3.1 yv
          let t2 := p.affine_backward sm.2 o3.2
          let g1 := alSet (alSet [] "W2" (tadd t2.2.1 (tsmul net.reg W2))) "b2" t2.2.2
          let d2 := p.relu_backward t2.1 o2.2
          let t1 := p.affine_backward d2 o1.2
          let g2 := alSet (alSet g1 "W1" (tadd t1.2.1 (tsmul net.reg W1))) "b1" t1.2.2
          let l := sm.1 + 1/2 * net.reg * (sumsq W1 + sumsq W2)
          Except.ok (Sum.inr (l, g2))
      | _, _ => Except.error "KeyError"
    | _, _ => Except.error "KeyError")

/-- The state of a `FullyConnectedNet` instance: exactly the fields set by
`__init__`. -/
structure FullyConnectedNet where
  use_batchnorm : Bool
  use_dropout : Bool
  reg : ℚ
  num_layers : Nat
  dtype : Dtype
  params : List (String × Tensor)
  dropout_param : PyDict
  bn_params : List PyDict
deriving DecidableEq

/-- The `for i in range(2, len(hidden_dims) + 1)` initialization loop of
`FullyConnectedNet.__init__`: allocate `W_i`, `b_i` (and `gamma_i`,
`beta_i` under batch norm) from `hidden_dims[i-2]`, `hidden_dims[i-1]`. -/
def initLayers (hd : List Nat) (use_bn : Bool) (ws : ℚ)
    (randn : ℚ → Nat → Nat → Nat → Tensor) :
    List Nat → List (String × Tensor) → Except String (List (String × Tensor))
  | [], params => Except.ok params
  | i :: rest, params =>
    match hd.get? (i - 2), hd.get? (i - 1) with
    | some din, some dout =>
      let params1 := alSet (alSet params ("W" ++ toString i) (randn ws i din dout))
        ("b" ++ toString i) (zeros dout)
      let params2 :=
        if use_bn then
          alSet (alSet params1 ("gamma" ++ toString i) (ones dout))
            ("beta" ++ toString i) (zeros dout)
        else params1
      initLayers hd use_bn ws randn rest params2
    | _, _ => Except.error "IndexError"

/-- `FullyConnectedNet.__init__`.  Note the source indexes `hidden_dims[0]`
and `hidden_dims[len(hidden_dims) - 1]` unconditionally, so an empty
hidden-layer list raises `IndexError`.  The final `astype` cast over
`self.params.iteritems()` is the trailing `map`. -/
def FullyConnectedNet.init (hidden_dims : List Nat) (input_dim num_classes : Nat)
    (dropout : ℚ) (use_batchnorm : Bool) (reg weight_scale : ℚ) (dtype : Dtype)
    (seed : Option Int) (randn : ℚ → Nat → Nat → Nat → Tensor)
    (astype : Dtype → Tensor → Tensor) : Except String FullyConnectedNet :=
  match hidden_dims.head? with
  | none => Except.error "IndexError"
  | some h0 =>
    let p0 := alSet (alSet [] "W1" (randn weight_scale 1 input_dim h0)) "b1" (zeros h0)
    let p1 :=
      if use_batchnorm then alSet (alSet p0 "gamma1" (ones h0)) "beta1" (zeros h0)
      else p0
    match initLayers hidden_dims use_batchnorm weight_scale randn
        (List.range' 2 (hidden_dims.length - 1)) p1 with
    | Except.error e => Except.error e
    | Except.ok p2 =>
      match hidden_dims.get? (hidden_dims.length - 1) with
      | none => Except.error "IndexError"
      | some dlast =>
        let nl := 1 + hidden_dims.length
        let p3 := alSet (alSet p2 ("W" ++ toString nl)
            (randn weight_scale nl dlast num_classes))
          ("b" ++ toString nl) (zeros num_classes)
        let dp : PyDict :=
          if dropout > 0 then
            match seed with
            | none => [(PyKey.str "mode", PyVal.s "train"), (PyKey.str "p", PyVal.q dropout)]
            | some s => [(PyKey.str "mode", PyVal.s "train"), (PyKey.str "p", PyVal.q dropout),
                (PyKey.str "seed", PyVal.z s)]
          else []
        let bns : List PyDict :=
          if use_batchnorm then
            List.replicate (nl - 1) [(PyKey.str "mode", PyVal.s "train")]
          else []
        Except.ok
          { use_batchnorm := use_batchnorm,
            use_dropout := decide (dropout > 0),
            reg := reg,
            num_layers := nl,
            dtype := dtype,
            params := p3.map (fun kv => (kv.1, astype dtype kv.2)),
            dropout_param := dp,
            bn_params := bns }

/-- The forward loop `for i in range(1, self.num_layers)` of
`FullyConnectedNet.loss`, threading the running layer input, `cachemap`
and `regloss`.  `bnLast` is the leaked loop variable `bn_param` from the
mode-propagation loop: the source passes `bn_param[i-1]` — an integer-key
lookup in the LAST statistics record — to `batchnorm_forward`, so a
batch-norm layer raises `KeyError` (or `NameError` when `bn_params` is
empty and `bn_param` was never bound). -/
def fcForward {C : Type} (p : Primitives C) (params : List (String × Tensor))
    (use_bn use_do : Bool) (dp : PyDict) (reg : ℚ) (bnLast : Option PyDict) :
    List Nat → Tensor → List (String × C) → ℚ →
    Except String (Tensor × List (String × C) × ℚ)
  | [], x, cm, rl => Except.ok (x, cm, rl)
  | i :: rest, x, cm, rl =>
    match alGet params ("W" ++ toString i), alGet params ("b" ++ toString i) with
    | some W, some b =>
      let oa := p.affine_forward x W b
      let cm1 := alSet cm ("acache" ++ toString i) oa.2
      let rl1 := rl + 1/2 * reg * sumsq W
      match (if use_bn then
          match alGet params ("gamma" ++ toString i),
              alGet params ("beta" ++ toString i) with
          | some ga, some be =>
            match bnLast with
            | none => Except.error "NameError"
            | some r0 =>
              match alGet r0 (PyKey.int (Int.ofNat (i - 1))) with
              | none => Except.error "KeyError"
              | some v =>
                let ob := p.batchnorm_forward oa.1 ga be v
                Except.ok (ob.1, alSet cm1 ("bcache" ++ toString i) ob.2)
          | _, _ => Except.error "KeyError"
        else Except.ok (oa.1, cm1)) with
      | Except.error e => Except.error e
      | Except.ok xc =>
        let orl := p.relu_forward xc.1
        let cm3 := alSet xc.2 ("rcache" ++ toString i) orl.2
        let stepped :=
          if use_do then
            let od := p.dropout_forward orl.1 dp
            (od.1, alSet cm3 ("dcache" ++ toString i) od.2)
          else (orl.1, cm3)
        fcForward p params use_bn use_do dp reg bnLast rest stepped.1 stepped.2 rl1
    | _, _ => Except.error "KeyError"

/-- The backward loop `for i in range(self.num_layers-1, 0, -1)` of
`FullyConnectedNet.loss`: optional dropout backward, relu backward,
optional batch-norm backward (recording `gamma_i`, `beta_i` gradients),
affine backward with the L2 term added to the weight gradient. -/
def fcBackward {C : Type} (p : Primitives C) (params : List (String × Tensor))
    (use_bn use_do : Bool) (reg : ℚ) (cm : List (String × C)) :
    List Nat → Tensor → List (String × Tensor) →
    Except String (Tensor × List (String × Tensor))
  | [], dout, g => Except.ok (dout, g)
  | i :: rest, dout, g =>
    match (if use_do then
        match alGet cm ("dcache" ++ toString i) with
        | none => Except.error "KeyError"
        | some dc => Except.ok (p.dropout_backward dout dc)
      else Except.ok dout) with
    | Except.error e => Except.error e
    | Except.ok d1 =>
      match alGet cm ("rcache" ++ toString i) with
      | none => Except.error "KeyError"
      | some rc =>
        let d2 := p.relu_backward d1 rc
        match (if use_bn then
            match alGet cm ("bcache" ++ toString i) with
            | none => Except.error "KeyError"
            | some bc =>
              let tb := p.batchnorm_backward d2 bc
              Except.ok (tb.1,
                alSet (alSet g ("gamma" ++ toString i) tb.2.1) ("beta" ++ toString i) tb.2.2)
          else Except.ok (d2, g)) with
        | Except.error e => Except.error e
        | Except.ok dg =>
          match alGet cm ("acache" ++ toString i) with
          | none => Except.error "KeyError"
          | some ac =>
            let ta := p.affine_backward dg.1 ac
            match alGet params ("W" ++ toString i) with
            | none => Except.error "KeyError"
            | some Wv =>
              let g2 := alSet (alSet dg.2 ("W" ++ toString i)
                  (tadd ta.2.1 (tsmul reg Wv)))
                ("b" ++ toString i) ta.2.2
              fcBackward p params use_bn use_do reg cm rest ta.1 g2

/-- The body of `FullyConnectedNet.loss` after the mode propagation:
forward loop, final affine layer, early return of the scores in test mode,
otherwise softmax loss plus accumulated regularization and the backward
traversal. -/
def FullyConnectedNet.lossResult {C : Type} (p : Primitives C)
    (net : FullyConnectedNet) (X : Tensor) (y : Option Labels) :
    Except String LossResult :=
  let L := net.num_layers
  let bnLast := net.bn_params.getLast?
  match fcForward p net.params net.use_batchnorm net.use_dropout net.dropout_param net.reg
      bnLast (List.range' 1 (L - 1)) X [] 0 with
  | Except.error e => Except.error e
  | Except.ok fwd =>
    match alGet net.params ("W" ++ toString L), alGet net.params ("b" ++ toString L) with
    | some WL, some bL =>
      let osc := p.affine_forward fwd.1 WL bL
      let cm2 := alSet fwd.2.1 ("acache" ++ toString L) osc.2
      let rl2 := fwd.2.2 + 1/2 * net.reg * sumsq WL
      match y with
      | none => Except.ok (Sum.inl osc.1)
      | some yv =>
        let sm := p.softmax_loss osc.1 yv
        let l := sm.1 + rl2
        match alGet cm2 ("acache" ++ toString L) with
        | none => Except.error "KeyError"
        | some acL =>
          let ta := p.affine_backward sm.2 acL
          match alGet net.params ("W" ++ toString L) with
          | none => Except.error "KeyError"
          | some WL2 =>
            let g0 := alSet (alSet [] ("W" ++ toString L)
                (tadd ta.2.1 (tsmul net.reg WL2)))
              ("b" ++ toString L) ta.2.2
            match fcBackward p net.params net.use_batchnorm net.use_dropout net.reg cm2
                (List.range' 1 (L - 1)).reverse ta.1 g0 with
            | Except.error e => Except.error e
            | Except.ok bwd => Except.ok (Sum.inr (l, bwd.2))
    | _, _ => Except.error "KeyError"

/-- The mode-propagation prefix of `FullyConnectedNet.loss`:
`self.dropout_param['mode'] = mode` (the `is not None` guard is always
true), and — the source's `bn_param[mode] = mode` — insertion of a key
equal to the mode string into every batch-norm record, leaving their
`'mode'` fields untouched. -/
def modeUpdate (net : FullyConnectedNet) (y : Option Labels) : FullyConnectedNet :=
  let mode := match y with | none => "test" | some _ => "train"
  let dp := alSet net.dropout_param (PyKey.str "mode") (PyVal.s mode)
  let bns :=
    if net.use_batchnorm then
      net.bn_params.map (fun r => alSet r (PyKey.str mode) (PyVal.s mode))
    else net.bn_params
  { net with dropout_param := dp, bn_params := bns }

/-- `FullyConnectedNet.loss(X, y)`: cast `X`, propagate the mode derived
from `y` (see `modeUpdate`), then run the forward/backward body on the
updated state, which is returned next to the result (exceptions in Python
leave the already-performed mutations in place). -/
def FullyConnectedNet.loss {C : Type} (p : Primitives C) (net : FullyConnectedNet)
    (X : Tensor) (y : Option Labels) :
    FullyConnectedNet × Except String LossResult :=
  let X1 := p.astype net.dtype X
  let net1 := modeUpdate net y
  (net1, FullyConnectedNet.lossResult p net1 X1 y)

/-! ### Concrete primitive instances used by closed evaluations -/

/-- A trivial but shape-correct instance of the layer primitives: every
forward output keeps the contracted shape, every backward returns its
upstream gradient.  Used to evaluate the embedded networks on concrete
inputs. -/
def dprims : Primitives Unit :=
  { affine_forward := fun x w _ => (⟨x.rows, w.cols, x.data⟩, ()),
    relu_forward := fun x => (x, ()),
    batchnorm_forward := fun x _ _ _ => (x, ()),
    dropout_forward := fun x _ => (x, ()),
    softmax_loss := fun s _ => (sumsq s, s),
    affine_backward := fun d _ => (d, d, d),
    relu_backward := fun d _ => d,
    batchnorm_backward := fun d _ => (d, d, d),
    dropout_backward := fun d _ => d,
    astype := fun _ x => x }

/-- A deterministic stand-in for `np.random.normal(0, scale, (r, c))`:
a shape-(r, c) tensor (entry values irrelevant to every claim). -/
def drandn : ℚ → Nat → Nat → Nat → Tensor := fun _ _ r c => ⟨r, c, []⟩

/-- Modelled from the spec: the dropout primitive itself lives in
`core.layers`, which is not part of the embedded source file; per the
spec's glossary it performs "random zeroing of activations at a fixed rate
during training, identity at inference", reading the mode from the dropout
configuration.  This instance realizes a training-mode draw that zeroes
every activation, with identity affine/relu, so that train-mode and
test-mode forward passes differ — as any faithful dropout does. -/
def cprims : Primitives Unit :=
  { affine_forward := fun x _ _ => (x, ()),
    relu_forward := fun x => (x, ()),
    batchnorm_forward := fun x _ _ _ => (x, ()),
    dropout_forward := fun x d =>
      (if alGet d (PyKey.str "mode") = some (PyVal.s "train") then tsmul 0 x else x, ()),
    softmax_loss := fun s _ => (sumsq s, s),
    affine_backward := fun d _ => (d, d, d),
    relu_backward := fun d _ => d,
    batchnorm_backward := fun d _ => (d, d, d),
    dropout_backward := fun d _ => d,
    astype := fun _ x => x }

/-- A second primitives instance sharing the forward fields and `astype`
of `dprims` but with visibly different softmax and backward fields; an
inference call cannot tell it apart from `dprims`. -/
def dprims2 : Primitives Unit :=
  { dprims with
    softmax_loss := fun s _ => (sumsq s + 7, tsmul 2 s),
    affine_backward := fun d _ => (tsmul 2 d, d, d),
    relu_backward := fun d _ => tsmul 3 d,
    batchnorm_backward := fun d _ => (d, tsmul 2 d, d),
    dropout_backward := fun d _ => tsmul 5 d }

/-- Fallback instance used only to strip the `Except` wrapper from
concrete successful constructions. -/
def fcFallback : FullyConnectedNet := ⟨false, false, 0, 0, 0, [], [], []⟩

/-- A concrete batch-norm-enabled network: `FullyConnectedNet([1],
input_dim=2, num_classes=2, use_batchnorm=True)`. -/
def netBN1 : FullyConnectedNet :=
  (FullyConnectedNet.init [1] 2 2 0 true 0 1 0 none drandn dprims.astype).toOption.getD fcFallback

/-- A concrete batch-norm-enabled network with two hidden layers:
`FullyConnectedNet([2, 3], input_dim=4, num_classes=3, use_batchnorm=True)`. -/
def netBN2 : FullyConnectedNet :=
  (FullyConnectedNet.init [2, 3] 4 3 0 true 0 1 0 none drandn dprims.astype).toOption.getD fcFallback

/-- A concrete dropout-enabled network: `FullyConnectedNet([1], input_dim=1,
num_classes=1, dropout=1, reg=0)` (any dropout strength `> 0` enables the
dropout sublayer). -/
def netDrop : FullyConnectedNet :=
  (FullyConnectedNet.init [1] 1 1 1 false 0 1 0 none drandn cprims.astype).toOption.getD fcFallback

/-- A concrete network constructed with the negative dropout value `-1`:
`FullyConnectedNet([1], input_dim=2, num_classes=2, dropout=-1)`. -/
def netND : FullyConnectedNet :=
  (FullyConnectedNet.init [1] 2 2 (-1) false 0 1 0 none drandn dprims.astype).toOption.getD fcFallback

/-- A concrete plain network (no batch norm, no dropout):
`FullyConnectedNet([2], input_dim=2, num_classes=2, reg=0)`. -/
def netFC : FullyConnectedNet :=
  (FullyConnectedNet.init [2] 2 2 0 false 0 1 0 none drandn dprims.astype).toOption.getD fcFallback

/-- A concrete two-layer network, `TwoLayerNet(2, 2, 2, reg=0)`. -/
def twoNet : TwoLayerNet := TwoLayerNet.init 2 2 2 1 0 drandn

/-- A weight generator with concrete nonzero entries, so that the
regularization term of a witness evaluation is nonzero. -/
def vrandn : ℚ → Nat → Nat → Nat → Tensor := fun _ _ r c => ⟨r, c, [[1, 2]]⟩

/-- `FullyConnectedNet([2], input_dim=2, num_classes=2, reg=0)` with
concrete nonzero weights. -/
def netFCv : FullyConnectedNet :=
  (FullyConnectedNet.init [2] 2 2 0 false 0 1 0 none vrandn dprims.astype).toOption.getD fcFallback

/-- `TwoLayerNet(2, 2, 2, reg=0)` with concrete nonzero weights. -/
def twoNetv : TwoLayerNet := TwoLayerNet.init 2 2 2 1 0 vrandn

/-- The loss component of a training-mode result, when one was returned. -/
def getTrainLoss (r : Except String LossResult) : Option ℚ :=
  match r with
  | Except.ok (Sum.inr lg) => some lg.1
  | _ => none

/-- The scores tensor of a test-mode result, when one was returned. -/
def getTestScores (r : Except String LossResult) : Option Tensor :=
  match r with
  | Except.ok (Sum.inl s) => some s
  | _ => none

/-- `np.sum(W_i ** 2)` for the parameter named `k`, zero when absent (every
use is guarded by a successful lookup). -/
def weightSq (d : List (String × Tensor)) (k : String) : ℚ :=
  (alGet d k).elim 0 sumsq

/-- The spec's `Σ‖W_i‖²_F` over the layer indices `idxs`. -/
def wSum (d : List (String × Tensor)) (idxs : List Nat) : ℚ :=
  (idxs.map (fun i => weightSq d ("W" ++ toString i))).sum

/-! ### Association-list dictionary lemmas -/

@[simp] theorem alKeys_nil {κ α : Type} : alKeys ([] : List (κ × α)) = [] := rfl

@[simp] theorem alKeys_cons {κ α : Type} (kv : κ × α) (d : List (κ × α)) :
    alKeys (kv :: d) = kv.1 :: alKeys d := rfl

theorem alGet_alSet_self {κ α : Type} [DecidableEq κ] (d : List (κ × α)) (k : κ) (v : α) :
    alGet (alSet d k v) k = some v := by
  induction d with
  | nil => simp [alGet, alSet]
  | cons kv rest ih =>
    by_cases h : kv.1 = k
    · simp [alGet, alSet, h]
    · simp [alGet, alSet, h, ih]

theorem alGet_alSet_ne {κ α : Type} [DecidableEq κ] (d : List (κ × α)) (k k' : κ) (v : α)
    (h : k' ≠ k) : alGet (alSet d k v) k' = alGet d k' := by
  have h2 : ¬(k = k') := fun hh => h hh.symm
  induction d with
  | nil => simp [alGet, alSet, h2]
  | cons kv rest ih =>
    by_cases hk : kv.1 = k
    · simp [alGet, alSet, hk, h2]
    · by_cases hk' : kv.1 = k'
      · simp [alGet, alSet, hk, hk', h, h2]
      · simp [alGet, alSet, hk, hk', ih]

theorem mem_alKeys_alSet {κ α : Type} [DecidableEq κ] (d : List (κ × α)) (k k' : κ) (v : α) :
    k' ∈ alKeys (alSet d k v) ↔ k' = k ∨ k' ∈ alKeys d := by
  induction d with
  | nil => simp [alSet]
  | cons kv rest ih =>
    by_cases hk : kv.1 = k
    · simp only [alSet, if_pos hk, alKeys_cons, List.mem_cons]
      subst hk
      tauto
    · simp only [alSet, if_neg hk, alKeys_cons, List.mem_cons, ih]
      tauto

theorem alGet_map_value {κ α β : Type} [DecidableEq κ] (d : List (κ × α)) (f : α → β) (k : κ) :
    alGet (d.map (fun kv => (kv.1, f kv.2))) k = (alGet d k).map f := by
  induction d with
  | nil => simp [alGet]
  | cons kv rest ih =>
    by_cases hk : kv.1 = k
    · simp [alGet, hk]
    · simp [alGet, hk, ih]

theorem alKeys_map_value {κ α β : Type} (d : List (κ × α)) (f : α → β) :
    alKeys (d.map (fun kv => (kv.1, f kv.2))) = alKeys d := by
  induction d with
  | nil => rfl
  | cons kv rest ih => simp only [List.map_cons, alKeys_cons, ih]

/-! ### Forward-loop lemmas -/

@[simp] theorem wSum_nil (d : List (String × Tensor)) : wSum d [] = 0 := rfl

@[simp] theorem wSum_cons (d : List (String × Tensor)) (i : Nat) (rest : List Nat) :
    wSum d (i :: rest) = weightSq d ("W" ++ toString i) + wSum d rest := by
  simp [wSum]

/-- Value of the `regloss` accumulator threaded through the forward loop:
each visited layer adds `0.5 * reg * np.sum(W_i ** 2)`. -/
theorem fcForward_regloss {C : Type} (p : Primitives C) (params : List (String × Tensor))
    (use_bn use_do : Bool) (dp : PyDict) (reg : ℚ) (bnLast : Option PyDict) :
    ∀ (idxs : List Nat) (x : Tensor) (cm : List (String × C)) (r : ℚ)
      (x' : Tensor) (cm' : List (String × C)) (s : ℚ),
    fcForward p params use_bn use_do dp reg bnLast idxs x cm r = Except.ok (x', cm', s) →
    s = r + 1/2 * reg * wSum params idxs := by
  intro idxs
  induction idxs with
  | nil =>
    intro x cm r x' cm' s h
    simp only [fcForward, Except.ok.injEq, Prod.mk.injEq] at h
    simp [← h.2.2]
  | cons i rest ih =>
    intro x cm r x' cm' s h
    simp only [fcForward] at h
    cases hW : alGet params ("W" ++ toString i) with
    | none => rw [hW] at h; simp at h
    | some W =>
      cases hb : alGet params ("b" ++ toString i) with
      | none => rw [hW, hb] at h; simp at h
      | some b =>
        rw [hW, hb] at h
        simp only [] at h
        split at h
        · simp at h
        · have := ih _ _ _ _ _ _ h
          rw [this, wSum_cons]
          simp only [weightSq, hW, Option.elim]
          ring

/-- Congruence for the forward loop: two runs over the same parameters and
sublayer flags (and the same dropout configuration whenever dropout is in
use), with last-records agreeing on integer-key lookups, thread identical
data and caches; only the regloss accumulator may differ. -/
theorem fcForward_congr {C : Type} (p : Primitives C) (params : List (String × Tensor))
    (use_bn use_do : Bool) (dp1 dp2 : PyDict) (reg1 reg2 : ℚ)
    (bnLast1 bnLast2 : Option PyDict)
    (hdp : use_do = true → dp1 = dp2)
    (hnone : bnLast1 = none ↔ bnLast2 = none)
    (hint : ∀ r1 r2 j, bnLast1 = some r1 → bnLast2 = some r2 →
      alGet r1 (PyKey.int j) = alGet r2 (PyKey.int j)) :
    ∀ (idxs : List Nat) (x : Tensor) (cm : List (String × C)) (r1 r2 : ℚ)
      (x' : Tensor) (cm' : List (String × C)) (s1 : ℚ),
    fcForward p params use_bn use_do dp1 reg1 bnLast1 idxs x cm r1 = Except.ok (x', cm', s1) →
    ∃ s2, fcForward p params use_bn use_do dp2 reg2 bnLast2 idxs x cm r2 = Except.ok (x', cm', s2) := by
  intro idxs
  induction idxs with
  | nil =>
    intro x cm r1 r2 x' cm' s1 h
    simp only [fcForward, Except.ok.injEq, Prod.mk.injEq] at h
    exact ⟨r2, by simp [fcForward, h.1, h.2.1]⟩
  | cons i rest ih =>
    intro x cm r1 r2 x' cm' s1 h
    simp only [fcForward] at h ⊢
    cases hW : alGet params ("W" ++ toString i) with
    | none => rw [hW] at h; simp at h
    | some W =>
      cases hb : alGet params ("b" ++ toString i) with
      | none => rw [hW, hb] at h; simp at h
      | some b =>
        rw [hW, hb] at h
        simp only [] at h ⊢
        cases use_bn with
        | false =>
          simp only [Bool.false_eq_true, if_false] at h ⊢
          cases hdo : use_do with
          | false =>
            subst hdo
            simp only [Bool.false_eq_true, if_false] at h ⊢
            exact ih _ _ _ _ _ _ _ h
          | true =>
            subst hdo
            have hdd := hdp rfl
            subst hdd
            simp only [if_true] at h ⊢
            exact ih _ _ _ _ _ _ _ h
        | true =>
          simp only [if_true] at h ⊢
          cases hga : alGet params ("gamma" ++ toString i) with
          | none => rw [hga] at h; simp at h
          | some ga =>
            rw [hga] at h
            cases hbe : alGet params ("beta" ++ toString i) with
            | none => rw [hbe] at h; simp at h
            | some be =>
              rw [hbe] at h
              simp only [] at h ⊢
              cases hl1 : bnLast1 with
              | none => rw [hl1] at h; simp at h
              | some rec1 =>
                rw [hl1] at h
                cases hl2 : bnLast2 with
                | none =>
                  rw [hl1, hl2] at hnone
                  simp at hnone
                | some rec2 =>
                  rw [hl1, hl2] at ih
                  simp only [] at h ⊢
                  cases hv : alGet rec1 (PyKey.int (Int.ofNat (i - 1))) with
                  | none => rw [hv] at h; simp at h
                  | some v =>
                    rw [hv] at h
                    rw [(hint rec1 rec2 _ hl1 hl2).symm.trans hv]
                    simp only [] at h ⊢
                    cases hdo : use_do with
                    | false =>
                      subst hdo
                      simp only [Bool.false_eq_true, if_false] at h ⊢
                      exact ih _ _ _ _ _ _ _ h
                    | true =>
                      subst hdo
                      have hdd := hdp rfl
                      subst hdd
                      simp only [if_true] at h ⊢
                      exact ih _ _ _ _ _ _ _ h

/-- Inversion of a successful test-mode `lossResult`: the forward loop and
the final-layer lookups succeeded, and the result is exactly the scores of
the final affine layer. -/
theorem lossResult_test_inv {C : Type} (p : Primitives C) (net : FullyConnectedNet)
    (X : Tensor) (res : LossResult)
    (h : FullyConnectedNet.lossResult p net X none = Except.ok res) :
    ∃ x' cm' s WL bL,
      fcForward p net.params net.use_batchnorm net.use_dropout net.dropout_param net.reg
        net.bn_params.getLast? (List.range' 1 (net.num_layers - 1)) X [] 0
        = Except.ok (x', cm', s) ∧
      alGet net.params ("W" ++ toString net.num_layers) = some WL ∧
      alGet net.params ("b" ++ toString net.num_layers) = some bL ∧
      res = Sum.inl (p.affine_forward x' WL bL).1 := by
  unfold FullyConnectedNet.lossResult at h
  dsimp only [] at h
  split at h
  · simp at h
  · rename_i fwd hfwd
    split at h
    · rename_i WL bL hWL hbL
      refine ⟨fwd.1, fwd.2.1, fwd.2.2, WL, bL, ?_, hWL, hbL, ?_⟩
      · rw [hfwd]
      · simp only [Except.ok.injEq] at h
        exact h.symm
    · simp at h

/-- Inversion of a successful train-mode `lossResult`: the forward loop,
final-layer lookups and backward loop all succeeded, the returned loss is
softmax loss plus accumulated regularization, and the returned gradients
are the backward loop's output. -/
theorem lossResult_train_inv {C : Type} (p : Primitives C) (net : FullyConnectedNet)
    (X : Tensor) (yv : Labels) (l : ℚ) (g : List (String × Tensor))
    (h : FullyConnectedNet.lossResult p net X (some yv) = Except.ok (Sum.inr (l, g))) :
    ∃ x' cm' s WL bL,
      fcForward p net.params net.use_batchnorm net.use_dropout net.dropout_param net.reg
        net.bn_params.getLast? (List.range' 1 (net.num_layers - 1)) X [] 0
        = Except.ok (x', cm', s) ∧
      alGet net.params ("W" ++ toString net.num_layers) = some WL ∧
      alGet net.params ("b" ++ toString net.num_layers) = some bL ∧
      l = (p.softmax_loss (p.affine_forward x' WL bL).1 yv).1 + (s + 1/2 * net.reg * sumsq WL) ∧
      ∃ dres,
        fcBackward p net.params net.use_batchnorm net.use_dropout net.reg
          (alSet cm' ("acache" ++ toString net.num_layers) (p.affine_forward x' WL bL).2)
          (List.range' 1 (net.num_layers - 1)).reverse
          (p.affine_backward (p.softmax_loss (p.affine_forward x' WL bL).1 yv).2
            (p.affine_forward x' WL bL).2).1
          (alSet (alSet [] ("W" ++ toString net.num_layers)
              (tadd (p.affine_backward (p.softmax_loss (p.affine_forward x' WL bL).1 yv).2
                  (p.affine_forward x' WL bL).2).2.1
                (tsmul net.reg WL)))
            ("b" ++ toString net.num_layers)
            (p.affine_backward (p.softmax_loss (p.affine_forward x' WL bL).1 yv).2
              (p.affine_forward x' WL bL).2).2.2)
          = Except.ok (dres, g) := by
  unfold FullyConnectedNet.lossResult at h
  dsimp only [] at h
  split at h
  · simp at h
  · rename_i fwd hfwd
    split at h
    · rename_i WL bL hWL hbL
      rw [alGet_alSet_self] at h
      dsimp only [] at h
      rw [hWL] at h
      dsimp only [] at h
      split at h
      · simp at h
      · rename_i bres hbres
        simp only [Except.ok.injEq, Sum.inr.injEq, Prod.mk.injEq] at h
        refine ⟨fwd.1, fwd.2.1, fwd.2.2, WL, bL, ?_, hWL, hbL, h.1.symm, bres.1, ?_⟩
        · rw [hfwd]
        · exact hbres.trans (by rw [← h.2])
    · simp at h

@[simp] theorem FullyConnectedNet.loss_fst {C : Type} (p : Primitives C)
    (net : FullyConnectedNet) (X : Tensor) (y : Option Labels) :
    (FullyConnectedNet.loss p net X y).1 = modeUpdate net y := rfl

@[simp] theorem FullyConnectedNet.loss_snd {C : Type} (p : Primitives C)
    (net : FullyConnectedNet) (X : Tensor) (y : Option Labels) :
    (FullyConnectedNet.loss p net X y).2
      = FullyConnectedNet.lossResult p (modeUpdate net y) (p.astype net.dtype X) y := rfl

@[simp] theorem modeUpdate_params (net : FullyConnectedNet) (y : Option Labels) :
    (modeUpdate net y).params = net.params := rfl

@[simp] theorem modeUpdate_reg (net : FullyConnectedNet) (y : Option Labels) :
    (modeUpdate net y).reg = net.reg := rfl

@[simp] theorem modeUpdate_use_batchnorm (net : FullyConnectedNet) (y : Option Labels) :
    (modeUpdate net y).use_batchnorm = net.use_batchnorm := rfl

@[simp] theorem modeUpdate_use_dropout (net : FullyConnectedNet) (y : Option Labels) :
    (modeUpdate net y).use_dropout = net.use_dropout := rfl

@[simp] theorem modeUpdate_num_layers (net : FullyConnectedNet) (y : Option Labels) :
    (modeUpdate net y).num_layers = net.num_layers := rfl

@[simp] theorem modeUpdate_dtype (net : FullyConnectedNet) (y : Option Labels) :
    (modeUpdate net y).dtype = net.dtype := rfl

theorem modeUpdate_dropout_param (net : FullyConnectedNet) (y : Option Labels) :
    (modeUpdate net y).dropout_param
      = alSet net.dropout_param (PyKey.str "mode")
          (PyVal.s (match y with | none => "test" | some _ => "train")) := rfl

theorem modeUpdate_bn_params (net : FullyConnectedNet) (y : Option Labels) :
    (modeUpdate net y).bn_params
      = (if net.use_batchnorm then
          net.bn_params.map (fun r =>
            alSet r (PyKey.str (match y with | none => "test" | some _ => "train"))
              (PyVal.s (match y with | none => "test" | some _ => "train")))
        else net.bn_params) := rfl

/-! ### Claim theorems: direct evaluations -/

/-- C3: the claim says constructing a `FullyConnectedNet` with
`hidden_dims = []` succeeds and yields a zero-hidden-layer affine+softmax
classifier.  The code instead evaluates `hidden_dims[0]` unconditionally,
so for EVERY other argument the construction raises `IndexError`. -/
theorem C3_empty_hidden_raises (input_dim num_classes : Nat) (dropout : ℚ)
    (bn : Bool) (reg ws : ℚ) (dt : Dtype) (seed : Option Int)
    (randn : ℚ → Nat → Nat → Nat → Tensor) (astype : Dtype → Tensor → Tensor) :
    FullyConnectedNet.init [] input_dim num_classes dropout bn reg ws dt seed randn astype
      = Except.error "IndexError" := rfl

/-- C4: the claim says each hidden layer's batch-norm transform uses that
layer's own statistics record `self.bn_params[i-1]` and that the lookup
raises no error.  The code instead evaluates `bn_param[i-1]` where
`bn_param` is the loop variable leaked from the mode-propagation loop — a
string-keyed dict — so the integer-key lookup raises `KeyError` on the
very first hidden layer: a training-mode call on the concrete
batch-norm network `FullyConnectedNet([2,3], input_dim=4, num_classes=3,
use_batchnorm=True)` errors instead of computing a loss. -/
theorem C4_bn_record_keyerror :
    FullyConnectedNet.init [2, 3] 4 3 0 true 0 1 0 none drandn dprims.astype
      = Except.ok netBN2 ∧
    (netBN2.loss dprims ⟨2, 4, [[1, 1, 1, 1], [0, 0, 0, 0]]⟩ (some [0, 1])).2
      = Except.error "KeyError" := ⟨rfl, rfl⟩

/-- C5: the claim says every batch-norm statistics record's `'mode'` field
equals the call's mode after a `loss` call.  The code executes
`bn_param[mode] = mode`, which INSERTS a key equal to the mode string; on
an inference call (`mode = 'test'`) of a batch-norm network the record
afterwards still has `'mode' = 'train'` next to a fresh `'test'` key. -/
theorem C5_bn_mode_stale :
    (netBN1.loss dprims ⟨1, 2, [[1, 1]]⟩ none).1.bn_params
      = [[(PyKey.str "mode", PyVal.s "train"), (PyKey.str "test", PyVal.s "test")]] ∧
    ((netBN1.loss dprims ⟨1, 2, [[1, 1]]⟩ none).1.bn_params.map
        (fun r => alGet r (PyKey.str "mode")))
      = [some (PyVal.s "train")] := ⟨rfl, rfl⟩

/-- C9: no `loss` call mutates the parameter store: `TwoLayerNet.loss`
returns its instance unchanged, and `FullyConnectedNet.loss` returns an
instance whose `params` equal the incoming `params` (only the dropout
configuration and the batch-norm records are written). -/
theorem C9_params_preserved :
    (∀ (C : Type) (p : Primitives C) (net : TwoLayerNet) (X : Tensor) (y : Option Labels),
      (TwoLayerNet.loss p net X y).1 = net) ∧
    (∀ (C : Type) (p : Primitives C) (net : FullyConnectedNet) (X : Tensor) (y : Option Labels),
      ((FullyConnectedNet.loss p net X y).1).params = net.params) :=
  ⟨fun _ _ _ _ _ => rfl, fun _ _ _ _ _ => rfl⟩

/-- C2, counterexample: with batch normalization enabled, a training-mode
`loss(X, y)` call does not return a gradient dictionary at all — it raises
`KeyError` (the `bn_param[i-1]` lookup) — so the claimed key-set equality
cannot hold "for every combination of batch-norm enabled/disabled". -/
theorem C2_batchnorm_no_grads :
    FullyConnectedNet.init [1] 2 2 0 true 0 1 0 none drandn dprims.astype
      = Except.ok netBN1 ∧
    (netBN1.loss dprims ⟨1, 2, [[1, 1]]⟩ (some [0])).2 = Except.error "KeyError" :=
  ⟨rfl, rfl⟩

/-- C8, counterexample: with batch normalization enabled even the
inference call `loss(X)` raises `KeyError` before reaching the early
return, so it does not return a score tensor for every network. -/
theorem C8_batchnorm_inference_error :
    (netBN1.loss dprims ⟨1, 2, [[1, 1]]⟩ none).2 = Except.error "KeyError" := rfl

/-- C7, counterexample: on a dropout-enabled network the training-mode
forward pass applies dropout masking while the inference pass does not, so
the training loss (here `0`, computed from zeroed activations) differs
from the softmax-loss primitive applied to the inference scores (here
`1`), even though `λ = 0`.  Uses the spec-modelled dropout primitive of
`cprims`. -/
theorem C7_dropout_train_loss_differs :
    getTestScores ((netDrop.loss cprims ⟨1, 1, [[1]]⟩ none).2) = some ⟨1, 1, [[1]]⟩ ∧
    getTrainLoss ((netDrop.loss cprims ⟨1, 1, [[1]]⟩ (some [0])).2) = some 0 ∧
    (cprims.softmax_loss ⟨1, 1, [[1]]⟩ [0]).1 = 1 ∧
    getTrainLoss ((netDrop.loss cprims ⟨1, 1, [[1]]⟩ (some [0])).2)
      ≠ some ((cprims.softmax_loss ⟨1, 1, [[1]]⟩ [0]).1) := by
  have h2 : getTrainLoss ((netDrop.loss cprims ⟨1, 1, [[1]]⟩ (some [0])).2) = some 0 := by
    norm_num +decide [netDrop, FullyConnectedNet.init, initLayers, FullyConnectedNet.loss,
      FullyConnectedNet.lossResult, modeUpdate, fcForward, fcBackward, cprims, drandn,
      alGet, alSet, getTrainLoss, sumsq, tsmul, tadd, zeros]
  have h3 : (cprims.softmax_loss ⟨1, 1, [[1]]⟩ [0]).1 = 1 := by
    norm_num [cprims, sumsq]
  refine ⟨rfl, h2, h3, ?_⟩
  rw [h2, h3]
  simp

/-- C10: constructing a `FullyConnectedNet` with a negative dropout value
raises no error beyond what the identical `dropout = 0` construction
raises: the two constructions are equal state for state, and on success
the network has `use_dropout = False` (the test is `dropout > 0`) and an
empty dropout configuration. -/
theorem C10_negative_dropout_disabled (d : ℚ) (hneg : d < 0)
    (hd : List Nat) (input_dim num_classes : Nat) (bn : Bool) (reg ws : ℚ)
    (dt : Dtype) (seed : Option Int) (randn : ℚ → Nat → Nat → Nat → Tensor)
    (astype : Dtype → Tensor → Tensor) (net : FullyConnectedNet)
    (hnet : FullyConnectedNet.init hd input_dim num_classes d bn reg ws dt seed randn astype
      = Except.ok net) :
    FullyConnectedNet.init hd input_dim num_classes d bn reg ws dt seed randn astype
      = FullyConnectedNet.init hd input_dim num_classes 0 bn reg ws dt seed randn astype ∧
    net.use_dropout = false ∧ net.dropout_param = [] := by
  have hd0 : ¬(d > 0) := by linarith
  have h00 : ¬((0 : ℚ) > 0) := by norm_num
  refine ⟨?_, ?_⟩
  · unfold FullyConnectedNet.init
    simp only [if_neg hd0, if_neg h00, decide_eq_false hd0, decide_eq_false h00]
  · unfold FullyConnectedNet.init at hnet
    simp only [if_neg hd0, decide_eq_false hd0] at hnet
    iterate 6 (all_goals try split at hnet)
    all_goals try simp_all
    all_goals (subst hnet; exact ⟨rfl, rfl⟩)

/-- C10, witness: the concrete construction `FullyConnectedNet([1],
input_dim=2, num_classes=2, dropout=-1)` succeeds, equals the `dropout=0`
construction, and has dropout disabled. -/
theorem C10_negative_dropout_instance :
    ((-1 : ℚ) < 0) ∧
    (FullyConnectedNet.init [1] 2 2 (-1) false 0 1 0 none drandn dprims.astype
      = Except.ok netND) ∧
    (FullyConnectedNet.init [1] 2 2 (-1) false 0 1 0 none drandn dprims.astype
        = FullyConnectedNet.init [1] 2 2 0 false 0 1 0 none drandn dprims.astype ∧
      netND.use_dropout = false ∧ netND.dropout_param = []) :=
  ⟨by norm_num, rfl,
    C10_negative_dropout_disabled (-1) (by norm_num) [1] 2 2 false 0 1 0 none drandn
      dprims.astype netND rfl⟩

/-- The two mode updates of the same network (train and test) produce
batch-norm record lists whose last records agree on every integer-key
lookup: the update only writes a string key. -/
theorem modeUpdate_bnLast_compat (net : FullyConnectedNet) (y1 y2 : Option Labels) :
    ((modeUpdate net y1).bn_params.getLast? = none
      ↔ (modeUpdate net y2).bn_params.getLast? = none) ∧
    (∀ r1 r2 j, (modeUpdate net y1).bn_params.getLast? = some r1 →
      (modeUpdate net y2).bn_params.getLast? = some r2 →
      alGet r1 (PyKey.int j) = alGet r2 (PyKey.int j)) := by
  rw [modeUpdate_bn_params, modeUpdate_bn_params]
  cases hbn : net.use_batchnorm with
  | false =>
    simp only [Bool.false_eq_true, if_false]
    refine ⟨by simp, fun r1 r2 j h1 h2 => ?_⟩
    rw [h1] at h2
    injection h2 with h
    rw [h]
  | true =>
    simp only [if_true]
    constructor
    · rw [List.getLast?_map, List.getLast?_map]
      cases net.bn_params.getLast? <;> simp
    · intro r1 r2 j h1 h2
      rw [List.getLast?_map] at h1 h2
      cases hL : net.bn_params.getLast? with
      | none => rw [hL] at h1; simp at h1
      | some r0 =>
        rw [hL] at h1 h2
        simp at h1 h2
        rw [← h1, ← h2]
        rw [alGet_alSet_ne _ _ _ _ (by simp), alGet_alSet_ne _ _ _ _ (by simp)]

/-- Inversion of a successful `FullyConnectedNet.__init__`: the list
indexings succeeded and the fields of the resulting state are as built by
the constructor. -/
theorem init_inv (hd : List Nat) (input_dim num_classes : Nat) (dropout : ℚ)
    (use_bn : Bool) (reg ws : ℚ) (dt : Dtype) (seed : Option Int)
    (randn : ℚ → Nat → Nat → Nat → Tensor) (astype : Dtype → Tensor → Tensor)
    (net : FullyConnectedNet)
    (h : FullyConnectedNet.init hd input_dim num_classes dropout use_bn reg ws dt seed
      randn astype = Except.ok net) :
    ∃ h0 p2 dlast,
      hd.head? = some h0 ∧
      initLayers hd use_bn ws randn (List.range' 2 (hd.length - 1))
        (if use_bn then
          alSet (alSet (alSet (alSet [] "W1" (randn ws 1 input_dim h0)) "b1" (zeros h0))
            "gamma1" (ones h0)) "beta1" (zeros h0)
        else alSet (alSet [] "W1" (randn ws 1 input_dim h0)) "b1" (zeros h0))
        = Except.ok p2 ∧
      hd.get? (hd.length - 1) = some dlast ∧
      net.use_batchnorm = use_bn ∧
      net.use_dropout = decide (dropout > 0) ∧
      net.reg = reg ∧
      net.num_layers = 1 + hd.length ∧
      net.dtype = dt ∧
      net.params = (alSet (alSet p2 ("W" ++ toString (1 + hd.length))
          (randn ws (1 + hd.length) dlast num_classes))
        ("b" ++ toString (1 + hd.length)) (zeros num_classes)).map
        (fun kv => (kv.1, astype dt kv.2)) := by
  unfold FullyConnectedNet.init at h
  cases use_bn with
  | false =>
    simp only [Bool.false_eq_true, if_false] at h ⊢
    split at h
    · simp at h
    · rename_i h0 hh0
      split at h
      · simp at h
      · rename_i p2 hp2
        split at h
        · simp at h
        · rename_i dlast hdlast
          simp only [Except.ok.injEq] at h
          subst h
          exact ⟨h0, p2, dlast, hh0, hp2, hdlast, rfl, rfl, rfl, rfl, rfl, rfl⟩
  | true =>
    simp only [if_true] at h ⊢
    split at h
    · simp at h
    · rename_i h0 hh0
      split at h
      · simp at h
      · rename_i p2 hp2
        split at h
        · simp at h
        · rename_i dlast hdlast
          simp only [Except.ok.injEq] at h
          subst h
          exact ⟨h0, p2, dlast, hh0, hp2, hdlast, rfl, rfl, rfl, rfl, rfl, rfl⟩

/-- Keys inserted by the `__init__` layer loop (batch norm disabled):
exactly `W_i`, `b_i` for the visited indices. -/
theorem initLayers_keys (hd : List Nat) (ws : ℚ) (randn : ℚ → Nat → Nat → Nat → Tensor) :
    ∀ (idxs : List Nat) (params params' : List (String × Tensor)),
    initLayers hd false ws randn idxs params = Except.ok params' →
    ∀ k, k ∈ alKeys params' ↔
      k ∈ alKeys params ∨ ∃ i ∈ idxs, k = "W" ++ toString i ∨ k = "b" ++ toString i := by
  intro idxs
  induction idxs with
  | nil =>
    intro params params' h k
    simp only [initLayers, Except.ok.injEq] at h
    subst h
    simp
  | cons i rest ih =>
    intro params params' h k
    simp only [initLayers, Bool.false_eq_true, if_false] at h
    split at h
    · rename_i din dout hdin hdout
      rw [ih _ _ h k, mem_alKeys_alSet, mem_alKeys_alSet, List.exists_mem_cons_iff]
      aesop
    · simp at h

/-- Keys inserted by the backward loop (batch norm disabled): exactly
`W_i`, `b_i` for the visited indices, on top of the incoming gradients. -/
theorem fcBackward_keys {C : Type} (p : Primitives C) (params : List (String × Tensor))
    (use_do : Bool) (reg : ℚ) (cm : List (String × C)) :
    ∀ (idxs : List Nat) (dout : Tensor) (g : List (String × Tensor))
      (d' : Tensor) (g' : List (String × Tensor)),
    fcBackward p params false use_do reg cm idxs dout g = Except.ok (d', g') →
    ∀ k, k ∈ alKeys g' ↔
      k ∈ alKeys g ∨ ∃ i ∈ idxs, k = "W" ++ toString i ∨ k = "b" ++ toString i := by
  intro idxs
  induction idxs with
  | nil =>
    intro dout g d' g' h k
    simp only [fcBackward, Except.ok.injEq, Prod.mk.injEq] at h
    rw [← h.2]
    simp
  | cons i rest ih =>
    intro dout g d' g' h k
    simp only [fcBackward, Bool.false_eq_true, if_false] at h
    cases hdo : use_do with
    | false =>
      subst hdo
      simp only [Bool.false_eq_true, if_false] at h
      split at h
      · simp at h
      · rename_i rc hrc
        split at h
        · simp at h
        · rename_i ac hac
          split at h
          · simp at h
          · rename_i Wv hWv
            rw [ih _ _ _ _ h k, mem_alKeys_alSet, mem_alKeys_alSet,
              List.exists_mem_cons_iff]
            aesop
    | true =>
      subst hdo
      simp only [if_true] at h
      split at h
      · simp at h
      · rename_i dc hdc
        split at h
        · simp at h
        · rename_i rc hrc
          split at h
          · simp at h
          · rename_i ac hac
            split at h
            · simp at h
            · rename_i Wv hWv
              rw [ih _ _ _ _ h k, mem_alKeys_alSet, mem_alKeys_alSet,
                List.exists_mem_cons_iff]
              aesop

/-- C6: for both networks, with parameters, batch and labels fixed, the
training loss returned with regularization strength `lam` minus the loss
returned with strength `0` equals `0.5 * lam * Σ ‖W_i‖²_F` over exactly the
weight matrices (biases, gammas and betas contribute nothing).  For the
`FullyConnectedNet` the sum runs over the hidden-layer weights
`W_1 .. W_{L-1}` plus the final `W_L`. -/
theorem C6_reg_decomposition :
    (∀ (C : Type) (p : Primitives C) (params : List (String × Tensor)) (lam : ℚ)
      (X : Tensor) (y : Labels) (l1 l0 : ℚ) (g1 g0 : List (String × Tensor)),
      0 < lam →
      (TwoLayerNet.loss p ⟨params, lam⟩ X (some y)).2 = Except.ok (Sum.inr (l1, g1)) →
      (TwoLayerNet.loss p ⟨params, 0⟩ X (some y)).2 = Except.ok (Sum.inr (l0, g0)) →
      l1 - l0 = 1/2 * lam * (weightSq params "W1" + weightSq params "W2")) ∧
    (∀ (C : Type) (p : Primitives C) (net : FullyConnectedNet) (lam : ℚ)
      (X : Tensor) (y : Labels) (l1 l0 : ℚ) (g1 g0 : List (String × Tensor)),
      0 < lam →
      (FullyConnectedNet.loss p { net with reg := lam } X (some y)).2
        = Except.ok (Sum.inr (l1, g1)) →
      (FullyConnectedNet.loss p { net with reg := 0 } X (some y)).2
        = Except.ok (Sum.inr (l0, g0)) →
      l1 - l0 = 1/2 * lam * (wSum net.params (List.range' 1 (net.num_layers - 1))
        + weightSq net.params ("W" ++ toString net.num_layers))) := by
  constructor
  · intro C p params lam X y l1 l0 g1 g0 hpos h1 h0
    simp only [TwoLayerNet.loss] at h1 h0
    try dsimp only [] at h1 h0
    cases hW1 : alGet params "W1" with
    | none => rw [hW1] at h1; simp at h1
    | some W1 =>
      cases hb1 : alGet params "b1" with
      | none => rw [hW1, hb1] at h1; simp at h1
      | some b1 =>
        rw [hW1, hb1] at h1 h0
        try dsimp only [] at h1 h0
        cases hW2 : alGet params "W2" with
        | none => rw [hW2] at h1; simp at h1
        | some W2 =>
          cases hb2 : alGet params "b2" with
          | none => rw [hW2, hb2] at h1; simp at h1
          | some b2 =>
            rw [hW2, hb2] at h1 h0
            try dsimp only [] at h1 h0
            simp only [Except.ok.injEq, Sum.inr.injEq, Prod.mk.injEq] at h1 h0
            rw [← h1.1, ← h0.1]
            simp only [weightSq, hW1, hW2, Option.elim]
            ring
  · intro C p net lam X y l1 l0 g1 g0 hpos h1 h0
    rw [FullyConnectedNet.loss_snd] at h1 h0
    obtain ⟨x1, cm1, s1, WL1, bL1, hfwd1, hWL1, hbL1, hl1, d1, hbwd1⟩ :=
      lossResult_train_inv _ _ _ _ _ _ h1
    obtain ⟨x0, cm0, s0, WL0, bL0, hfwd0, hWL0, hbL0, hl0, d0, hbwd0⟩ :=
      lossResult_train_inv _ _ _ _ _ _ h0
    clear hbwd1 hbwd0 h1 h0
    simp only [modeUpdate_params, modeUpdate_use_batchnorm, modeUpdate_use_dropout,
      modeUpdate_num_layers, modeUpdate_reg, modeUpdate_dropout_param, modeUpdate_bn_params]
      at hfwd1 hWL1 hbL1 hl1 hfwd0 hWL0 hbL0 hl0
    try dsimp only [] at hfwd1 hWL1 hbL1 hl1 hfwd0 hWL0 hbL0 hl0
    obtain ⟨s2, hfwd2⟩ :=
      fcForward_congr p net.params net.use_batchnorm net.use_dropout _ _ lam 0 _ _
        (fun _ => rfl) Iff.rfl
        (fun r1 r2 j e1 e2 => by rw [e1] at e2; injection e2 with h; rw [h])
        _ _ _ _ 0 _ _ _ hfwd1
    rw [hfwd0] at hfwd2
    simp only [Except.ok.injEq, Prod.mk.injEq] at hfwd2
    obtain ⟨hx, hcm, hs⟩ := hfwd2
    rw [hWL1] at hWL0
    injection hWL0 with hWL
    rw [hbL1] at hbL0
    injection hbL0 with hbL
    have hs1 := fcForward_regloss p net.params net.use_batchnorm net.use_dropout _ lam _
      _ _ _ _ _ _ _ hfwd1
    have hs0 := fcForward_regloss p net.params net.use_batchnorm net.use_dropout _ 0 _
      _ _ _ _ _ _ _ hfwd0
    subst hx hcm hs hWL hbL
    rw [hl1, hl0, hs1, hs0]
    simp only [weightSq, hWL1, Option.elim]
    ring

/-- C6, witness: on concrete two-layer and fully-connected networks with
weights `[[1, 2]]` (so `Σ‖W_i‖²_F = 10`), the `lam = 1` training loss is 6,
the `lam = 0` training loss is 1, and `6 - 1 = 0.5 * 1 * 10`. -/
theorem C6_reg_decomposition_instance :
    ((0 : ℚ) < 1) ∧
    ((6 : ℚ) - 1 = 1/2 * 1 * (weightSq twoNetv.params "W1" + weightSq twoNetv.params "W2")) ∧
    ((6 : ℚ) - 1 = 1/2 * 1 * (wSum netFCv.params (List.range' 1 (netFCv.num_layers - 1))
      + weightSq netFCv.params ("W" ++ toString netFCv.num_layers))) := by
  refine ⟨by norm_num, ?_, ?_⟩
  · refine C6_reg_decomposition.1 Unit dprims twoNetv.params 1 ⟨1, 2, [[1, 0]]⟩ [0] 6 1
      [("W2", ⟨1, 2, [[2, 2]]⟩), ("b2", ⟨1, 2, [[1, 0]]⟩),
        ("W1", ⟨1, 2, [[2, 2]]⟩), ("b1", ⟨1, 2, [[1, 0]]⟩)]
      [("W2", ⟨1, 2, [[1, 0]]⟩), ("b2", ⟨1, 2, [[1, 0]]⟩),
        ("W1", ⟨1, 2, [[1, 0]]⟩), ("b1", ⟨1, 2, [[1, 0]]⟩)]
      (by norm_num) ?_ ?_
    · norm_num +decide [twoNetv, TwoLayerNet.init, TwoLayerNet.loss, vrandn, dprims,
        alGet, alSet, sumsq, tadd, tsmul, zeros]
    · norm_num +decide [twoNetv, TwoLayerNet.init, TwoLayerNet.loss, vrandn, dprims,
        alGet, alSet, sumsq, tadd, tsmul, zeros]
  · refine C6_reg_decomposition.2 Unit dprims netFCv 1 ⟨1, 2, [[1, 0]]⟩ [0] 6 1
      [("W2", ⟨1, 2, [[2, 2]]⟩), ("b2", ⟨1, 2, [[1, 0]]⟩),
        ("W1", ⟨1, 2, [[2, 2]]⟩), ("b1", ⟨1, 2, [[1, 0]]⟩)]
      [("W2", ⟨1, 2, [[1, 0]]⟩), ("b2", ⟨1, 2, [[1, 0]]⟩),
        ("W1", ⟨1, 2, [[1, 0]]⟩), ("b1", ⟨1, 2, [[1, 0]]⟩)]
      (by norm_num) ?_ ?_
    · norm_num +decide [netFCv, FullyConnectedNet.init, initLayers, FullyConnectedNet.loss,
        FullyConnectedNet.lossResult, modeUpdate, fcForward, fcBackward, vrandn, dprims,
        alGet, alSet, sumsq, tadd, tsmul, zeros]
    · norm_num +decide [netFCv, FullyConnectedNet.init, initLayers, FullyConnectedNet.loss,
        FullyConnectedNet.lossResult, modeUpdate, fcForward, fcBackward, vrandn, dprims,
        alGet, alSet, sumsq, tadd, tsmul, zeros]

/-- C7 (amended): for a network whose regularization strength is zero AND
whose dropout is disabled, the loss returned by a training-mode call equals
the softmax-loss primitive applied to the scores an inference call returns
(for `TwoLayerNet` the dropout proviso is vacuous — it has no dropout).
With dropout enabled the training-mode forward pass masks activations and
the equality fails (see the counterexample). -/
theorem C7_loss_matches_softmax :
    (∀ (C : Type) (p : Primitives C) (net : TwoLayerNet) (X : Tensor) (y : Labels)
      (s : Tensor) (l : ℚ) (g : List (String × Tensor)),
      net.reg = 0 →
      (TwoLayerNet.loss p net X none).2 = Except.ok (Sum.inl s) →
      (TwoLayerNet.loss p net X (some y)).2 = Except.ok (Sum.inr (l, g)) →
      l = (p.softmax_loss s y).1) ∧
    (∀ (C : Type) (p : Primitives C) (net : FullyConnectedNet) (X : Tensor) (y : Labels)
      (s : Tensor) (l : ℚ) (g : List (String × Tensor)),
      net.reg = 0 →
      net.use_dropout = false →
      (FullyConnectedNet.loss p net X none).2 = Except.ok (Sum.inl s) →
      (FullyConnectedNet.loss p net X (some y)).2 = Except.ok (Sum.inr (l, g)) →
      l = (p.softmax_loss s y).1) := by
  constructor
  · intro C p net X y s l g hreg ht hr
    simp only [TwoLayerNet.loss] at ht hr
    try dsimp only [] at ht hr
    cases hW1 : alGet net.params "W1" with
    | none => rw [hW1] at ht; simp at ht
    | some W1 =>
      cases hb1 : alGet net.params "b1" with
      | none => rw [hW1, hb1] at ht; simp at ht
      | some b1 =>
        rw [hW1, hb1] at ht hr
        try dsimp only [] at ht hr
        cases hW2 : alGet net.params "W2" with
        | none => rw [hW2] at ht; simp at ht
        | some W2 =>
          cases hb2 : alGet net.params "b2" with
          | none => rw [hW2, hb2] at ht; simp at ht
          | some b2 =>
            rw [hW2, hb2] at ht hr
            try dsimp only [] at ht hr
            simp only [Except.ok.injEq, Sum.inl.injEq, Sum.inr.injEq, Prod.mk.injEq]
              at ht hr
            rw [← hr.1, ← ht, hreg]
            ring
  · intro C p net X y s l g hreg hdo ht hr
    rw [FullyConnectedNet.loss_snd] at ht hr
    obtain ⟨xt, cmt, st, WLt, bLt, hfwdt, hWLt, hbLt, hrest⟩ :=
      lossResult_test_inv _ _ _ _ ht
    obtain ⟨xr, cmr, sr, WLr, bLr, hfwdr, hWLr, hbLr, hlr, dr, hbwdr⟩ :=
      lossResult_train_inv _ _ _ _ _ _ hr
    clear ht hr hbwdr
    simp only [modeUpdate_params, modeUpdate_use_batchnorm, modeUpdate_use_dropout,
      modeUpdate_num_layers, modeUpdate_reg] at hfwdt hWLt hbLt hrest hfwdr hWLr hbLr hlr
    obtain ⟨hnone, hint⟩ := modeUpdate_bnLast_compat net (some y) none
    obtain ⟨s2, hfwd2⟩ := fcForward_congr p net.params net.use_batchnorm net.use_dropout
      ((modeUpdate net (some y)).dropout_param) ((modeUpdate net none).dropout_param)
      net.reg net.reg
      ((modeUpdate net (some y)).bn_params.getLast?) ((modeUpdate net none).bn_params.getLast?)
      (fun hdd => absurd (hdo.symm.trans hdd) (by simp)) hnone hint
      _ _ _ _ 0 _ _ _ hfwdr
    rw [hfwdt] at hfwd2
    simp only [Except.ok.injEq, Prod.mk.injEq] at hfwd2
    obtain ⟨hx, hcm, hs2⟩ := hfwd2
    rw [hWLr] at hWLt
    injection hWLt with hWL
    rw [hbLr] at hbLt
    injection hbLt with hbL
    injection hrest with hrs
    have hsr := fcForward_regloss p net.params net.use_batchnorm net.use_dropout _ net.reg _
      _ _ _ _ _ _ _ hfwdr
    rw [hlr, hsr, hreg, hrs, hx, ← hWL, ← hbL]
    ring

/-- C7, witness: on the concrete dropout-free `netFC` (and the concrete
`twoNet`) with `reg = 0`, the training loss is 1 and the softmax-loss
primitive on the inference scores is also 1. -/
theorem C7_loss_matches_softmax_instance :
    ((1 : ℚ) = (dprims.softmax_loss ⟨1, 2, [[1, 0]]⟩ [0]).1) ∧
    ((1 : ℚ) = (dprims.softmax_loss ⟨1, 2, [[1, 0]]⟩ [0]).1) := by
  constructor
  · refine C7_loss_matches_softmax.1 Unit dprims twoNet ⟨1, 2, [[1, 0]]⟩ [0]
      ⟨1, 2, [[1, 0]]⟩ 1
      [("W2", ⟨1, 2, []⟩), ("b2", ⟨1, 2, [[1, 0]]⟩),
        ("W1", ⟨1, 2, []⟩), ("b1", ⟨1, 2, [[1, 0]]⟩)]
      rfl rfl ?_
    norm_num +decide [twoNet, TwoLayerNet.init, TwoLayerNet.loss, drandn, dprims,
      alGet, alSet, sumsq, tadd, tsmul, zeros]
  · refine C7_loss_matches_softmax.2 Unit dprims netFC ⟨1, 2, [[1, 0]]⟩ [0]
      ⟨1, 2, [[1, 0]]⟩ 1
      [("W2", ⟨1, 2, []⟩), ("b2", ⟨1, 2, [[1, 0]]⟩),
        ("W1", ⟨1, 2, []⟩), ("b1", ⟨1, 2, [[1, 0]]⟩)]
      rfl rfl rfl ?_
    norm_num +decide [netFC, FullyConnectedNet.init, initLayers, FullyConnectedNet.loss,
      FullyConnectedNet.lossResult, modeUpdate, fcForward, fcBackward, drandn, dprims,
      alGet, alSet, sumsq, tadd, tsmul, zeros]

set_option maxHeartbeats 1600000

/-- C2 (amended): for every training-mode call that returns — `TwoLayerNet`
always; `FullyConnectedNet` constructed with batch normalization disabled,
dropout enabled or disabled — the key set of the returned gradient
dictionary equals the key set of the parameter store exactly.  (With batch
normalization enabled the call raises `KeyError` and returns no gradients;
see the counterexample.) -/
theorem C2_grad_keys :
    (∀ (C : Type) (p : Primitives C) (input_dim hidden_dim num_classes : Nat)
      (ws reg : ℚ) (randn : ℚ → Nat → Nat → Nat → Tensor) (X : Tensor) (y : Labels)
      (l : ℚ) (g : List (String × Tensor)),
      (TwoLayerNet.loss p (TwoLayerNet.init input_dim hidden_dim num_classes ws reg randn)
        X (some y)).2 = Except.ok (Sum.inr (l, g)) →
      ∀ k, k ∈ alKeys g ↔
        k ∈ alKeys (TwoLayerNet.init input_dim hidden_dim num_classes ws reg randn).params) ∧
    (∀ (C : Type) (p : Primitives C) (hd : List Nat) (input_dim num_classes : Nat)
      (dropout reg ws : ℚ) (dt : Dtype) (seed : Option Int)
      (randn : ℚ → Nat → Nat → Nat → Tensor) (astype : Dtype → Tensor → Tensor)
      (net : FullyConnectedNet) (X : Tensor) (y : Labels) (l : ℚ)
      (g : List (String × Tensor)),
      FullyConnectedNet.init hd input_dim num_classes dropout false reg ws dt seed randn
        astype = Except.ok net →
      (FullyConnectedNet.loss p net X (some y)).2 = Except.ok (Sum.inr (l, g)) →
      ∀ k, k ∈ alKeys g ↔ k ∈ alKeys net.params) := by
  constructor
  · intro C p input_dim hidden_dim num_classes ws reg randn X y l g h k
    simp only [TwoLayerNet.loss, TwoLayerNet.init] at h
    simp +decide [alGet, alSet] at h
    rw [← h.2]
    simp +decide [TwoLayerNet.init, alKeys, alSet]
    tauto
  · intro C p hd input_dim num_classes dropout reg ws dt seed randn astype net X y l g
      hinit hloss k
    obtain ⟨h0, p2, dlast, hh0, hp2, hdlast, hbn, hdo, hreg, hnl, hdt, hparams⟩ :=
      init_inv _ _ _ _ _ _ _ _ _ _ _ _ hinit
    rw [FullyConnectedNet.loss_snd] at hloss
    obtain ⟨x', cm', s, WL, bL, hfwd, hWL, hbL, hl, dres, hbwd⟩ :=
      lossResult_train_inv _ _ _ _ _ _ hloss
    simp only [modeUpdate_params, modeUpdate_use_batchnorm, modeUpdate_use_dropout,
      modeUpdate_num_layers, modeUpdate_reg] at hfwd hWL hbL hbwd
    rw [hbn] at hbwd
    have hkg := fcBackward_keys p net.params net.use_dropout net.reg _ _ _ _ _ _ hbwd k
    simp only [Bool.false_eq_true, if_false] at hp2
    have hkbase := initLayers_keys hd ws randn _ _ _ hp2 k
    have hkp : k ∈ alKeys net.params ↔
        k = "b" ++ toString (1 + hd.length) ∨ k = "W" ++ toString (1 + hd.length)
          ∨ k ∈ alKeys p2 := by
      rw [hparams, alKeys_map_value, mem_alKeys_alSet, mem_alKeys_alSet]
    have hlen1 : 1 ≤ hd.length := by
      cases hd with
      | nil => simp at hh0
      | cons a t => simp
    have hlen : net.num_layers - 1 = hd.length := by omega
    rw [hlen] at hkg
    rw [hkg, hkp, hkbase]
    simp only [mem_alKeys_alSet, alKeys_nil, List.not_mem_nil, or_false, false_or,
      List.mem_reverse]
    have e1 : ("W" ++ toString 1 : String) = "W1" := by decide
    have e2 : ("b" ++ toString 1 : String) = "b1" := by decide
    have hsplit : (∃ i ∈ List.range' 1 hd.length,
          k = "W" ++ toString i ∨ k = "b" ++ toString i) ↔
        ((k = "W1" ∨ k = "b1") ∨ ∃ i ∈ List.range' 2 (hd.length - 1),
          k = "W" ++ toString i ∨ k = "b" ++ toString i) := by
      constructor
      · rintro ⟨i, hi, hp⟩
        rw [List.mem_range'_1] at hi
        by_cases h1 : i = 1
        · subst h1
          rw [e1, e2] at hp
          exact Or.inl hp
        · exact Or.inr ⟨i, List.mem_range'_1.mpr (by omega), hp⟩
      · rintro (hp | ⟨i, hi, hp⟩)
        · exact ⟨1, List.mem_range'_1.mpr (by omega), by rw [e1, e2]; exact hp⟩
        · rw [List.mem_range'_1] at hi
          exact ⟨i, List.mem_range'_1.mpr (by omega), hp⟩
    rw [hnl]
    constructor
    · rintro ((hb | hw) | he)
      · exact Or.inl hb
      · exact Or.inr (Or.inl hw)
      · rcases hsplit.mp he with h1 | h2
        · exact Or.inr (Or.inr (Or.inl h1.symm))
        · exact Or.inr (Or.inr (Or.inr h2))
    · rintro (hb | hw | hbase | he)
      · exact Or.inl (Or.inl hb)
      · exact Or.inl (Or.inr hw)
      · exact Or.inr (hsplit.mpr (Or.inl hbase.symm))
      · exact Or.inr (hsplit.mpr (Or.inr he))

/-- C2, witness: concrete instantiations of both parts at the key `"W1"`,
with the hypotheses discharged by evaluating the loss calls on `twoNet`
and `netFC`. -/
theorem C2_grad_keys_instance :
    (("W1" ∈ alKeys [("W2", (⟨1, 2, []⟩ : Tensor)), ("b2", (⟨1, 2, [[1, 0]]⟩ : Tensor)),
        ("W1", (⟨1, 2, []⟩ : Tensor)), ("b1", (⟨1, 2, [[1, 0]]⟩ : Tensor))])
      ↔ "W1" ∈ alKeys (TwoLayerNet.init 2 2 2 1 0 drandn).params) ∧
    (("W1" ∈ alKeys [("W2", (⟨1, 2, []⟩ : Tensor)), ("b2", (⟨1, 2, [[1, 0]]⟩ : Tensor)),
        ("W1", (⟨1, 2, []⟩ : Tensor)), ("b1", (⟨1, 2, [[1, 0]]⟩ : Tensor))])
      ↔ "W1" ∈ alKeys netFC.params) := by
  constructor
  · refine C2_grad_keys.1 Unit dprims 2 2 2 1 0 drandn ⟨1, 2, [[1, 0]]⟩ [0] 1
      [("W2", ⟨1, 2, []⟩), ("b2", ⟨1, 2, [[1, 0]]⟩),
        ("W1", ⟨1, 2, []⟩), ("b1", ⟨1, 2, [[1, 0]]⟩)] ?_ "W1"
    norm_num +decide [TwoLayerNet.init, TwoLayerNet.loss, drandn, dprims,
      alGet, alSet, sumsq, tadd, tsmul, zeros]
  · refine C2_grad_keys.2 Unit dprims [2] 2 2 0 0 1 0 none drandn dprims.astype netFC
      ⟨1, 2, [[1, 0]]⟩ [0] 1
      [("W2", ⟨1, 2, []⟩), ("b2", ⟨1, 2, [[1, 0]]⟩),
        ("W1", ⟨1, 2, []⟩), ("b1", ⟨1, 2, [[1, 0]]⟩)] rfl ?_ "W1"
    norm_num +decide [netFC, FullyConnectedNet.init, initLayers, FullyConnectedNet.loss,
      FullyConnectedNet.lossResult, modeUpdate, fcForward, fcBackward, drandn, dprims,
      alGet, alSet, sumsq, tadd, tsmul, zeros]

/-! ### Inference-mode lemmas -/

/-- A key present in a dictionary has a value. -/
theorem alGet_some_of_mem {κ α : Type} [DecidableEq κ] (d : List (κ × α)) (k : κ)
    (h : k ∈ alKeys d) : ∃ v, alGet d k = some v := by
  induction d with
  | nil => simp [alKeys] at h
  | cons kv rest ih =>
    by_cases hk : kv.1 = k
    · exact ⟨kv.2, by simp [alGet, hk]⟩
    · simp only [alKeys_cons, List.mem_cons] at h
      rcases h with h | h
      · exact absurd h.symm hk
      · obtain ⟨v, hv⟩ := ih h
        exact ⟨v, by simp [alGet, hk, hv]⟩

/-- Weight and bias parameter names never collide. -/
theorem wb_key_ne (s t : String) : ("W" ++ s) ≠ ("b" ++ t) := by
  obtain ⟨sd⟩ := s
  obtain ⟨td⟩ := t
  intro h
  have h2 : (List.cons 'W' sd) = (List.cons 'b' td) := congrArg String.data h
  injection h2 with h3 h4
  exact absurd h3 (by decide)

/-- The forward loop reads only the four forward primitives. -/
theorem fcForward_prims {C : Type} (p q : Primitives C)
    (haf : p.affine_forward = q.affine_forward)
    (hrf : p.relu_forward = q.relu_forward)
    (hbf : p.batchnorm_forward = q.batchnorm_forward)
    (hdf : p.dropout_forward = q.dropout_forward)
    (params : List (String × Tensor)) (use_bn use_do : Bool) (dp : PyDict)
    (reg : ℚ) (bnLast : Option PyDict) :
    ∀ (idxs : List Nat) (x : Tensor) (cm : List (String × C)) (rl : ℚ),
    fcForward p params use_bn use_do dp reg bnLast idxs x cm rl
      = fcForward q params use_bn use_do dp reg bnLast idxs x cm rl := by
  intro idxs
  induction idxs with
  | nil => intro x cm rl; rfl
  | cons i rest ih =>
    intro x cm rl
    simp only [fcForward, haf, hrf, hbf, hdf, ih]

/-- A test-mode `TwoLayerNet.loss` call is independent of the softmax and
backward primitives. -/
theorem twoLoss_prims_test {C : Type} (p q : Primitives C)
    (haf : p.affine_forward = q.affine_forward)
    (hrf : p.relu_forward = q.relu_forward)
    (net : TwoLayerNet) (X : Tensor) :
    TwoLayerNet.loss p net X none = TwoLayerNet.loss q net X none := by
  simp only [TwoLayerNet.loss, haf, hrf]

/-- A test-mode `lossResult` is independent of the softmax and backward
primitives. -/
theorem lossResult_prims_test {C : Type} (p q : Primitives C)
    (haf : p.affine_forward = q.affine_forward)
    (hrf : p.relu_forward = q.relu_forward)
    (hbf : p.batchnorm_forward = q.batchnorm_forward)
    (hdf : p.dropout_forward = q.dropout_forward)
    (net : FullyConnectedNet) (X : Tensor) :
    FullyConnectedNet.lossResult p net X none
      = FullyConnectedNet.lossResult q net X none := by
  unfold FullyConnectedNet.lossResult
  dsimp only []
  rw [fcForward_prims p q haf hrf hbf hdf net.params net.use_batchnorm net.use_dropout
    net.dropout_param net.reg net.bn_params.getLast?
    (List.range' 1 (net.num_layers - 1)) X [] 0]
  simp only [haf]

/-- A test-mode `FullyConnectedNet.loss` call is independent of the softmax
and backward primitives. -/
theorem fcLoss_prims_test {C : Type} (p q : Primitives C)
    (haf : p.affine_forward = q.affine_forward)
    (hrf : p.relu_forward = q.relu_forward)
    (hbf : p.batchnorm_forward = q.batchnorm_forward)
    (hdf : p.dropout_forward = q.dropout_forward)
    (hat : p.astype = q.astype)
    (net : FullyConnectedNet) (X : Tensor) :
    FullyConnectedNet.loss p net X none = FullyConnectedNet.loss q net X none := by
  unfold FullyConnectedNet.loss
  dsimp only []
  rw [hat, lossResult_prims_test p q haf hrf hbf hdf (modeUpdate net none)
    (q.astype net.dtype X)]

/-- The exact value of a test-mode `TwoLayerNet.loss` call: the forward
chain `affine - relu - affine` and nothing else. -/
theorem twoLoss_test_formula {C : Type} (p : Primitives C) (net : TwoLayerNet)
    (X W1 b1 W2 b2 : Tensor)
    (hW1 : alGet net.params "W1" = some W1) (hb1 : alGet net.params "b1" = some b1)
    (hW2 : alGet net.params "W2" = some W2) (hb2 : alGet net.params "b2" = some b2) :
    (TwoLayerNet.loss p net X none).2
      = Except.ok (Sum.inl (p.affine_forward
          (p.relu_forward (p.affine_forward X W1 b1).1).1 W2 b2).1) := by
  unfold TwoLayerNet.loss
  dsimp only []
  rw [hW1, hb1, hW2, hb2]

/-- With batch norm disabled and every visited `W_i`, `b_i` key present,
the forward loop succeeds and preserves the batch dimension (given
row-preserving affine, relu and dropout primitives). -/
theorem fcForward_ok {C : Type} (p : Primitives C) (params : List (String × Tensor))
    (use_do : Bool) (dp : PyDict) (reg : ℚ) (bnLast : Option PyDict)
    (haff : ∀ x W b, (p.affine_forward x W b).1.rows = x.rows)
    (hrelu : ∀ x, (p.relu_forward x).1.rows = x.rows)
    (hdrop : ∀ x d, (p.dropout_forward x d).1.rows = x.rows) :
    ∀ (idxs : List Nat),
    (∀ i ∈ idxs, ("W" ++ toString i) ∈ alKeys params ∧ ("b" ++ toString i) ∈ alKeys params) →
    ∀ (x : Tensor) (cm : List (String × C)) (rl : ℚ),
    ∃ x' cm' s, fcForward p params false use_do dp reg bnLast idxs x cm rl
        = Except.ok (x', cm', s) ∧ x'.rows = x.rows := by
  intro idxs
  induction idxs with
  | nil =>
    intro _ x cm rl
    exact ⟨x, cm, rl, rfl, rfl⟩
  | cons i rest ih =>
    intro hmem x cm rl
    obtain ⟨hWm, hbm⟩ := hmem i (List.mem_cons_self i rest)
    obtain ⟨W, hW⟩ := alGet_some_of_mem params _ hWm
    obtain ⟨b, hb⟩ := alGet_some_of_mem params _ hbm
    have hrest := fun j hj => hmem j (List.mem_cons_of_mem i hj)
    cases hdo : use_do with
    | false =>
      subst hdo
      have hstep : fcForward p params false false dp reg bnLast (i :: rest) x cm rl
          = fcForward p params false false dp reg bnLast rest
            (p.relu_forward (p.affine_forward x W b).1).1
            (alSet (alSet cm ("acache" ++ toString i) (p.affine_forward x W b).2)
              ("rcache" ++ toString i) (p.relu_forward (p.affine_forward x W b).1).2)
            (rl + 1/2 * reg * sumsq W) := by
        simp only [fcForward]
        rw [hW, hb]
        rfl
      obtain ⟨x', cm', s, hrec, hrows⟩ := ih hrest
        (p.relu_forward (p.affine_forward x W b).1).1
        (alSet (alSet cm ("acache" ++ toString i) (p.affine_forward x W b).2)
          ("rcache" ++ toString i) (p.relu_forward (p.affine_forward x W b).1).2)
        (rl + 1/2 * reg * sumsq W)
      exact ⟨x', cm', s, hstep.trans hrec,
        hrows.trans ((hrelu _).trans (haff x W b))⟩
    | true =>
      subst hdo
      have hstep : fcForward p params false true dp reg bnLast (i :: rest) x cm rl
          = fcForward p params false true dp reg bnLast rest
            (p.dropout_forward (p.relu_forward (p.affine_forward x W b).1).1 dp).1
            (alSet (alSet (alSet cm ("acache" ++ toString i) (p.affine_forward x W b).2)
                ("rcache" ++ toString i) (p.relu_forward (p.affine_forward x W b).1).2)
              ("dcache" ++ toString i)
              (p.dropout_forward (p.relu_forward (p.affine_forward x W b).1).1 dp).2)
            (rl + 1/2 * reg * sumsq W) := by
        simp only [fcForward]
        rw [hW, hb]
        rfl
      obtain ⟨x', cm', s, hrec, hrows⟩ := ih hrest
        (p.dropout_forward (p.relu_forward (p.affine_forward x W b).1).1 dp).1
        (alSet (alSet (alSet cm ("acache" ++ toString i) (p.affine_forward x W b).2)
            ("rcache" ++ toString i) (p.relu_forward (p.affine_forward x W b).1).2)
          ("dcache" ++ toString i)
          (p.dropout_forward (p.relu_forward (p.affine_forward x W b).1).1 dp).2)
        (rl + 1/2 * reg * sumsq W)
      exact ⟨x', cm', s, hstep.trans hrec,
        hrows.trans ((hdrop _ _).trans ((hrelu _).trans (haff x W b)))⟩

/-- Introduction form of a test-mode `lossResult`: a successful forward
loop and final-layer lookups yield exactly the final affine scores. -/
theorem lossResult_test_intro {C : Type} (p : Primitives C) (net : FullyConnectedNet)
    (X x' : Tensor) (cm' : List (String × C)) (s : ℚ) (WL bL : Tensor)
    (hfwd : fcForward p net.params net.use_batchnorm net.use_dropout net.dropout_param
      net.reg net.bn_params.getLast? (List.range' 1 (net.num_layers - 1)) X [] 0
      = Except.ok (x', cm', s))
    (hWL : alGet net.params ("W" ++ toString net.num_layers) = some WL)
    (hbL : alGet net.params ("b" ++ toString net.num_layers) = some bL) :
    FullyConnectedNet.lossResult p net X none
      = Except.ok (Sum.inl (p.affine_forward x' WL bL).1) := by
  unfold FullyConnectedNet.lossResult
  dsimp only []
  rw [hfwd]
  dsimp only []
  rw [hWL, hbL]

/-- Parameter-store lookups available after a successful batch-norm-free
construction: every hidden layer's `W_i`, `b_i` key is present, and the
final layer's weight is the cast of the drawn `(dlast, num_classes)`
matrix. -/
theorem init_params_lookup (hd : List Nat) (input_dim num_classes : Nat)
    (dropout reg ws : ℚ) (dt : Dtype) (seed : Option Int)
    (randn : ℚ → Nat → Nat → Nat → Tensor) (astype0 : Dtype → Tensor → Tensor)
    (net : FullyConnectedNet)
    (h : FullyConnectedNet.init hd input_dim num_classes dropout false reg ws dt seed
      randn astype0 = Except.ok net) :
    net.use_batchnorm = false ∧
    net.num_layers = 1 + hd.length ∧
    (∀ i ∈ List.range' 1 hd.length,
      ("W" ++ toString i) ∈ alKeys net.params ∧ ("b" ++ toString i) ∈ alKeys net.params) ∧
    ∃ dlast,
      alGet net.params ("W" ++ toString net.num_layers)
        = some (astype0 dt (randn ws (1 + hd.length) dlast num_classes)) ∧
      ∃ bl, alGet net.params ("b" ++ toString net.num_layers) = some bl := by
  obtain ⟨h0, p2, dlast, hh0, hp2, hdlast, hbn, hdo, hreg, hnl, hdt, hparams⟩ :=
    init_inv hd input_dim num_classes dropout false reg ws dt seed randn astype0 net h
  simp only [Bool.false_eq_true, if_false] at hp2
  have hlen : 1 ≤ hd.length := by
    cases hd with
    | nil => simp at hh0
    | cons a t => simp
  refine ⟨hbn, hnl, ?_, dlast, ?_, astype0 dt (zeros num_classes), ?_⟩
  · intro i hi
    rw [List.mem_range'_1] at hi
    have hmem2 : ∀ pre : String, pre = "W" ∨ pre = "b" →
        (pre ++ toString i) ∈ alKeys p2 := by
      intro pre hpre
      rw [initLayers_keys hd ws randn _ _ p2 hp2]
      rcases Nat.lt_or_ge i 2 with h2 | h2
      · have hi1 : i = 1 := by omega
        subst hi1
        left
        rcases hpre with hpre | hpre <;> subst hpre <;> simp +decide [alSet, alKeys]
      · right
        refine ⟨i, ?_, ?_⟩
        · rw [List.mem_range'_1]
          omega
        · rcases hpre with hpre | hpre <;> subst hpre
          · left; rfl
          · right; rfl
    rw [hparams, alKeys_map_value]
    constructor
    · rw [mem_alKeys_alSet, mem_alKeys_alSet]
      exact Or.inr (Or.inr (hmem2 "W" (Or.inl rfl)))
    · rw [mem_alKeys_alSet, mem_alKeys_alSet]
      exact Or.inr (Or.inr (hmem2 "b" (Or.inr rfl)))
  · rw [hparams, hnl, alGet_map_value,
      alGet_alSet_ne _ _ _ _ (wb_key_ne (toString (1 + hd.length)) (toString (1 + hd.length))),
      alGet_alSet_self]
    rfl
  · rw [hparams, hnl, alGet_map_value, alGet_alSet_self]
    rfl

/-- C8 (amended): a labels-absent `loss(X)` call returns only the score
tensor of the forward chain — no softmax loss, no backward pass, no
gradient mapping.  (1) On every `TwoLayerNet` whose four parameters
resolve, the result is exactly the `affine - relu - affine` chain applied
to `X`.  (2) On a constructed `TwoLayerNet`, with shape-respecting
primitives, the call succeeds with a score tensor of shape
`(X.rows, num_classes)`.  (3) On every network of either class, the
test-mode result is unchanged under any replacement of the softmax and
backward primitives.  (4) On every batch-norm-free constructed
`FullyConnectedNet` (batch-norm-enabled ones raise instead, see the
counterexample), the call succeeds with a score tensor of shape
`(X.rows, num_classes)`. -/
theorem C8_inference_scores_only :
    (∀ (C : Type) (p : Primitives C) (net : TwoLayerNet) (X W1 b1 W2 b2 : Tensor),
      alGet net.params "W1" = some W1 → alGet net.params "b1" = some b1 →
      alGet net.params "W2" = some W2 → alGet net.params "b2" = some b2 →
      (TwoLayerNet.loss p net X none).2
        = Except.ok (Sum.inl (p.affine_forward
            (p.relu_forward (p.affine_forward X W1 b1).1).1 W2 b2).1)) ∧
    (∀ (C : Type) (p : Primitives C) (input_dim hidden_dim num_classes : Nat)
      (ws reg : ℚ) (randn : ℚ → Nat → Nat → Nat → Tensor) (X : Tensor),
      (∀ x W b, (p.affine_forward x W b).1.rows = x.rows
        ∧ (p.affine_forward x W b).1.cols = W.cols) →
      (∀ x, (p.relu_forward x).1.rows = x.rows) →
      (∀ sc i r c, (randn sc i r c).cols = c) →
      ∃ s, (TwoLayerNet.loss p
          (TwoLayerNet.init input_dim hidden_dim num_classes ws reg randn) X none).2
        = Except.ok (Sum.inl s) ∧ s.rows = X.rows ∧ s.cols = num_classes) ∧
    (∀ (C : Type) (p q : Primitives C),
      p.affine_forward = q.affine_forward → p.relu_forward = q.relu_forward →
      p.batchnorm_forward = q.batchnorm_forward →
      p.dropout_forward = q.dropout_forward → p.astype = q.astype →
      ∀ (tnet : TwoLayerNet) (fnet : FullyConnectedNet) (X : Tensor),
        TwoLayerNet.loss p tnet X none = TwoLayerNet.loss q tnet X none ∧
        FullyConnectedNet.loss p fnet X none = FullyConnectedNet.loss q fnet X none) ∧
    (∀ (C : Type) (p : Primitives C) (hd : List Nat) (input_dim num_classes : Nat)
      (dropout reg ws : ℚ) (dt : Dtype) (seed : Option Int)
      (randn : ℚ → Nat → Nat → Nat → Tensor) (astype0 : Dtype → Tensor → Tensor)
      (net : FullyConnectedNet) (X : Tensor),
      FullyConnectedNet.init hd input_dim num_classes dropout false reg ws dt seed
        randn astype0 = Except.ok net →
      (∀ x W b, (p.affine_forward x W b).1.rows = x.rows
        ∧ (p.affine_forward x W b).1.cols = W.cols) →
      (∀ x, (p.relu_forward x).1.rows = x.rows) →
      (∀ x d, (p.dropout_forward x d).1.rows = x.rows) →
      (∀ d t, (p.astype d t).rows = t.rows) →
      (∀ d t, (astype0 d t).cols = t.cols) →
      (∀ sc i r c, (randn sc i r c).cols = c) →
      ∃ s, (FullyConnectedNet.loss p net X none).2 = Except.ok (Sum.inl s)
        ∧ s.rows = X.rows ∧ s.cols = num_classes) := by
  refine ⟨?_, ?_, ?_, ?_⟩
  · intro C p net X W1 b1 W2 b2 hW1 hb1 hW2 hb2
    exact twoLoss_test_formula p net X W1 b1 W2 b2 hW1 hb1 hW2 hb2
  · intro C p input_dim hidden_dim num_classes ws reg randn X haff hrelu hrandn
    have h1 : alGet (TwoLayerNet.init input_dim hidden_dim num_classes ws reg randn).params
        "W1" = some (randn ws 1 input_dim hidden_dim) := rfl
    have h2 : alGet (TwoLayerNet.init input_dim hidden_dim num_classes ws reg randn).params
        "b1" = some (zeros hidden_dim) := rfl
    have h3 : alGet (TwoLayerNet.init input_dim hidden_dim num_classes ws reg randn).params
        "W2" = some (randn ws 2 hidden_dim num_classes) := rfl
    have h4 : alGet (TwoLayerNet.init input_dim hidden_dim num_classes ws reg randn).params
        "b2" = some (zeros num_classes) := rfl
    refine ⟨_, twoLoss_test_formula p _ X _ _ _ _ h1 h2 h3 h4, ?_, ?_⟩
    · exact (haff _ _ _).1.trans ((hrelu _).trans (haff _ _ _).1)
    · exact (haff _ _ _).2.trans (hrandn ws 2 hidden_dim num_classes)
  · intro C p q haf hrf hbf hdf hat tnet fnet X
    exact ⟨twoLoss_prims_test p q haf hrf tnet X,
      fcLoss_prims_test p q haf hrf hbf hdf hat fnet X⟩
  · intro C p hd input_dim num_classes dropout reg ws dt seed randn astype0 net X
      hinit haff hrelu hdrop hcast hcast0 hrandn
    obtain ⟨hbn, hnl, hmem, dlast, hWL, bl, hbL⟩ :=
      init_params_lookup hd input_dim num_classes dropout reg ws dt seed randn astype0
        net hinit
    have hbn1 : (modeUpdate net none).use_batchnorm = false := by
      rw [modeUpdate_use_batchnorm, hbn]
    have hidx : List.range' 1 ((modeUpdate net none).num_layers - 1)
        = List.range' 1 hd.length := by
      rw [modeUpdate_num_layers, hnl]
      congr 1
      omega
    have hmem1 : ∀ i ∈ List.range' 1 ((modeUpdate net none).num_layers - 1),
        ("W" ++ toString i) ∈ alKeys (modeUpdate net none).params ∧
        ("b" ++ toString i) ∈ alKeys (modeUpdate net none).params := by
      rw [hidx, modeUpdate_params]
      exact hmem
    obtain ⟨x', cm', s0, hfwd, hrows⟩ :=
      fcForward_ok p (modeUpdate net none).params (modeUpdate net none).use_dropout
        (modeUpdate net none).dropout_param (modeUpdate net none).reg
        (modeUpdate net none).bn_params.getLast?
        (fun x W b => (haff x W b).1) hrelu hdrop
        (List.range' 1 ((modeUpdate net none).num_layers - 1)) hmem1
        (p.astype net.dtype X) [] 0
    have hfwd2 : fcForward p (modeUpdate net none).params
        (modeUpdate net none).use_batchnorm (modeUpdate net none).use_dropout
        (modeUpdate net none).dropout_param (modeUpdate net none).reg
        (modeUpdate net none).bn_params.getLast?
        (List.range' 1 ((modeUpdate net none).num_layers - 1))
        (p.astype net.dtype X) [] 0 = Except.ok (x', cm', s0) := by
      rw [hbn1]
      exact hfwd
    have hWL1 : alGet (modeUpdate net none).params
        ("W" ++ toString (modeUpdate net none).num_layers)
        = some (astype0 dt (randn ws (1 + hd.length) dlast num_classes)) := by
      rw [modeUpdate_params, modeUpdate_num_layers]
      exact hWL
    have hbL1 : alGet (modeUpdate net none).params
        ("b" ++ toString (modeUpdate net none).num_layers) = some bl := by
      rw [modeUpdate_params, modeUpdate_num_layers]
      exact hbL
    refine ⟨(p.affine_forward x'
        (astype0 dt (randn ws (1 + hd.length) dlast num_classes)) bl).1, ?_, ?_, ?_⟩
    · rw [FullyConnectedNet.loss_snd]
      exact lossResult_test_intro p (modeUpdate net none) (p.astype net.dtype X)
        x' cm' s0 _ _ hfwd2 hWL1 hbL1
    · exact (haff _ _ _).1.trans (hrows.trans (hcast net.dtype X))
    · exact (haff _ _ _).2.trans ((hcast0 dt _).trans
        (hrandn ws (1 + hd.length) dlast num_classes))

/-- C8, witness: concrete instantiations of all four parts on `twoNet`,
`netFC`, the shape-correct `dprims` and its backward-perturbed twin
`dprims2`, at the batch `X = ⟨1, 2, [[1, 0]]⟩`. -/
theorem C8_inference_scores_only_instance :
    ((TwoLayerNet.loss dprims twoNet ⟨1, 2, [[1, 0]]⟩ none).2
      = Except.ok (Sum.inl ⟨1, 2, [[1, 0]]⟩)) ∧
    (∃ s, (TwoLayerNet.loss dprims (TwoLayerNet.init 2 2 2 1 0 drandn)
        ⟨1, 2, [[1, 0]]⟩ none).2
      = Except.ok (Sum.inl s) ∧ s.rows = 1 ∧ s.cols = 2) ∧
    (TwoLayerNet.loss dprims twoNet ⟨1, 2, [[1, 0]]⟩ none
        = TwoLayerNet.loss dprims2 twoNet ⟨1, 2, [[1, 0]]⟩ none ∧
      FullyConnectedNet.loss dprims netFC ⟨1, 2, [[1, 0]]⟩ none
        = FullyConnectedNet.loss dprims2 netFC ⟨1, 2, [[1, 0]]⟩ none) ∧
    (∃ s, (FullyConnectedNet.loss dprims netFC ⟨1, 2, [[1, 0]]⟩ none).2
      = Except.ok (Sum.inl s) ∧ s.rows = 1 ∧ s.cols = 2) := by
  refine ⟨?_, ?_, ?_, ?_⟩
  · exact C8_inference_scores_only.1 Unit dprims twoNet ⟨1, 2, [[1, 0]]⟩
      ⟨2, 2, []⟩ ⟨1, 2, [[0, 0]]⟩ ⟨2, 2, []⟩ ⟨1, 2, [[0, 0]]⟩ rfl rfl rfl rfl
  · exact C8_inference_scores_only.2.1 Unit dprims 2 2 2 1 0 drandn ⟨1, 2, [[1, 0]]⟩
      (fun x W b => ⟨rfl, rfl⟩) (fun x => rfl) (fun sc i r c => rfl)
  · exact C8_inference_scores_only.2.2.1 Unit dprims dprims2 rfl rfl rfl rfl rfl
      twoNet netFC ⟨1, 2, [[1, 0]]⟩
  · exact C8_inference_scores_only.2.2.2 Unit dprims [2] 2 2 0 0 1 0 none drandn
      dprims.astype netFC ⟨1, 2, [[1, 0]]⟩ rfl (fun x W b => ⟨rfl, rfl⟩)
      (fun x => rfl) (fun x d => rfl) (fun d t => rfl) (fun d t => rfl)
      (fun sc i r c => rfl)
